/-
Verification of the gp-trello sync tool against its specification.

This file gives a shallow embedding of the relevant parts of the source:

  * src/trello_sync/utils/formatting.py   (sanitize_file_name)
  * src/trello_sync/utils/config.py       (get_board_config, resolve_path_template,
                                           validate_config)
  * src/trello_sync/services/attachments.py (sanitize_filename, get_unique_filename,
                                           get_asset_path, is_image_file)
  * src/trello_sync/services/trello_sync.py (should_sync_card, sync_board)

Python strings are modelled as Lean `String` (operated on through `String.data`,
a `List Char`).  Character classes (`str.isalnum`, `str.lower`, whitespace) are
modelled through Lean's `Char` predicates, which agree with Python on ASCII; the
claims under verification only exercise ASCII data.  Filesystem state is
modelled as a function `String → Option Int` mapping a path to its mtime when
the path exists.  ISO-8601 parsing (`datetime.fromisoformat`) and
`os.path.relpath` are standard-library boundary functions and are taken as
parameters of the embedding.  Loops that are unbounded in the source
(`str.replace`-until-fixpoint, the filename-probing `while True`) are embedded
with an explicit fuel argument; for the bounded ones the fuel is instantiated
with a provably sufficient value, while for the genuinely unbounded probing
loop the fuel is kept as a parameter so that non-termination is observable as
fuel exhaustion.
-/
import Mathlib

set_option linter.unusedVariables false
set_option maxRecDepth 8000

/-! ## Python string primitives -/

/-- The characters `str.strip()` removes: Python's ASCII whitespace
`' '`, `\t`, `\n`, `\r`, `\x0b`, `\x0c`. -/
def pyIsSpaceChar (c : Char) : Bool :=
  c = ' ' || c = '\t' || c = '\n' || c = '\r' || c = Char.ofNat 11 || c = Char.ofNat 12

/-- Strip characters satisfying `p` from both ends of a character list
(`str.strip` / `str.strip('-')`). -/
def pyStrip (p : Char → Bool) (l : List Char) : List Char :=
  ((l.dropWhile p).reverse.dropWhile p).reverse

/-- One pass of `str.replace('--', '-')`: replaces non-overlapping occurrences
left to right. -/
def replaceDoubleDash : List Char → List Char
  | [] => []
  | [c] => [c]
  | c1 :: c2 :: rest =>
    if c1 = '-' ∧ c2 = '-' then '-' :: replaceDoubleDash rest
    else c1 :: replaceDoubleDash (c2 :: rest)

/-- `'--' in s`: does the list contain two adjacent hyphens? -/
def hasDoubleDash : List Char → Bool
  | [] => false
  | [_] => false
  | c1 :: c2 :: rest => (c1 = '-' && c2 = '-') || hasDoubleDash (c2 :: rest)

/-- The source's `while '--' in name: name = name.replace('--', '-')` loop,
with explicit fuel.  Each pass that fires strictly shortens the list, so
`l.length` rounds of fuel always reach the fixpoint. -/
def collapseFuel : Nat → List Char → List Char
  | 0, l => l
  | n + 1, l => if hasDoubleDash l then collapseFuel n (replaceDoubleDash l) else l

/-- Collapse repeated hyphens to one (the fixpoint of the loop above). -/
def collapseDashes (l : List Char) : List Char :=
  collapseFuel l.length l

/-! ## formatting.py : sanitize_file_name -/

/-- The character-level pipeline of `sanitize_file_name`: lowercase, strip,
remove special characters except spaces and hyphens, replace spaces with
hyphens, collapse repeated hyphens, trim leading/trailing hyphens, and limit
the length to 100. -/
def sanitizeCore (cs : List Char) : List Char :=
  let n1 := pyStrip pyIsSpaceChar (cs.map Char.toLower)
  let n2 := n1.filter (fun c => c.isAlphanum || c = ' ' || c = '-')
  let n3 := n2.map (fun c => if c = ' ' then '-' else c)
  let n4 := collapseDashes n3
  let n5 := pyStrip (fun c => c = '-') n4
  if n5.length > 100 then n5.take 100 else n5

/-- Embedding of `sanitize_file_name` (src/trello_sync/utils/formatting.py,
lines 6-30).  `none` models a Python `None` argument (the source also returns
`'untitled'` for any non-`str` argument, which the embedding cannot represent
beyond `none`).  `if not name` makes the empty string fall to `'untitled'`
immediately, and the trailing `return name or 'untitled'` catches a name that
sanitizes to nothing. -/
def sanitize_file_name (name : Option String) : String :=
  match name with
  | none => "untitled"
  | some s =>
    if s.data = [] then "untitled"
    else if sanitizeCore s.data = [] then "untitled"
    else String.mk (sanitizeCore s.data)

/-! ## config.py : board lookup and path templates -/

/-- One entry of the `boards:` list of `trello-sync.yaml`, as the sync pipeline
reads it.  Every field is optional because the source accesses them with
`dict.get`. -/
structure BoardConfig where
  board_id : Option String
  enabled : Option Bool
  workspace_name : Option String
  target_path : Option String
  assets_folder : Option String
deriving DecidableEq

/-- Embedding of `get_board_config` (src/trello_sync/utils/config.py, lines
100-115): the first entry whose `board_id` equals the requested id, or `None`.
(`bc.get('board_id') == board_id` is false when the key is absent.) -/
def get_board_config (boards : List BoardConfig) (board_id : String) : Option BoardConfig :=
  boards.find? (fun bc => decide (bc.board_id = some board_id))

/-- Python's `str.replace(pat, repl)` on character lists: all non-overlapping
occurrences, left to right.  Fuel-driven; `s.length` fuel suffices because each
step consumes at least one input character when `pat` is non-empty (every call
site passes a non-empty `pat`; for an empty `pat` the embedding leaves the
input unchanged, a case no caller exercises). -/
def replaceAllGo (pat repl : List Char) : Nat → List Char → List Char
  | 0, l => l
  | _ + 1, [] => []
  | n + 1, c :: rest =>
    if pat ≠ [] ∧ pat.isPrefixOf (c :: rest) then
      repl ++ replaceAllGo pat repl n ((c :: rest).drop pat.length)
    else c :: replaceAllGo pat repl n rest

/-- `s.replace(pat, repl)`. -/
def replaceAll (pat repl s : List Char) : List Char :=
  replaceAllGo pat repl s.length s

/-- Embedding of `resolve_path_template` (src/trello_sync/utils/config.py,
lines 118-131): for each variable, replace every `\x7bname\x7d` occurrence by its
value. -/
def resolve_path_template (template : String) (pathVariables : List (String × String)) : String :=
  pathVariables.foldl
    (fun result kv =>
      String.mk (replaceAll ("\x7b" ++ kv.1 ++ "\x7d").data kv.2.data result.data))
    template

/-! ## config.py : validate_config over raw YAML values -/

/-- Raw YAML values, as `yaml.safe_load` produces them, at the fidelity
`validate_config` needs (scalars, sequences, mappings). -/
inductive YVal where
  | str (s : String)
  | boolean (b : Bool)
  | int (n : Int)
  | nullV
  | list (xs : List YVal)
  | map (kvs : List (String × YVal))

/-- `dict.get(k)` on a YAML mapping. -/
def yget (kvs : List (String × YVal)) (k : String) : Option YVal :=
  (kvs.find? (fun p => decide (p.1 = k))).map (fun p => p.2)

/-- Python `str(v)` as interpolated into the `target_path` violation message.
Only scalar `board_id` values are rendered faithfully; the claims never
exercise a non-scalar `board_id`. -/
def yvalRender : YVal → String
  | .str s => s
  | .boolean b => if b then "True" else "False"
  | .int n => toString n
  | .nullV => "None"
  | .list _ => "<list>"
  | .map _ => "<dict>"

/-- `pat in s` (substring containment) on character lists. -/
def containsSub (pat : List Char) : List Char → Bool
  | [] => pat.isPrefixOf []
  | c :: rest => pat.isPrefixOf (c :: rest) || containsSub pat rest

/-- The four placeholders `validate_config` requires in `target_path`. -/
def requiredVars : List String := ["org", "board", "column", "card"]

/-- The violation messages produced for one board entry's `target_path`
(config.py lines 231-239). -/
def placeholderErrors (kvs : List (String × YVal)) (template : String) : List String :=
  let bid := yvalRender ((yget kvs "board_id").getD (.str "unknown"))
  requiredVars.filterMap (fun v =>
    if containsSub ("\x7b" ++ v ++ "\x7d").data template.data then none
    else
      some s!"Board {bid} target_path missing required variable: \x7b{v}\x7d")

/-- The per-entry loop of `validate_config` (config.py lines 223-239), with the
running index `i`.  A present but non-string `target_path` makes the Python
source raise an uncaught `TypeError` (`'{org}' not in template` on a
non-string); that crash is modelled as `Except.error`. -/
def validateBoards : List YVal → Nat → Except String (List String)
  | [], _ => .ok []
  | b :: rest, i =>
    match b with
    | .map kvs =>
      let e1 := if (yget kvs "board_id").isNone then
          [s!"Board config at index {i} missing 'board_id'"] else []
      match yget kvs "target_path" with
      | some (.str template) =>
        match validateBoards rest (i + 1) with
        | .ok tail => .ok (e1 ++ placeholderErrors kvs template ++ tail)
        | .error e => .error e
      | some _ => .error "TypeError: argument of type is not iterable"
      | none =>
        match validateBoards rest (i + 1) with
        | .ok tail => .ok (e1 ++ tail)
        | .error e => .error e
    | _ =>
      match validateBoards rest (i + 1) with
      | .ok tail => .ok (s!"Board config at index {i} must be a dictionary" :: tail)
      | .error e => .error e

/-- Embedding of `validate_config` (src/trello_sync/utils/config.py, lines
204-241), over an already-loaded configuration mapping (`load_config` fills the
`boards` default in, which `config.get('boards', [])` reproduces here). -/
def validate_config (config : List (String × YVal)) : Except String (List String) :=
  match (yget config "boards").getD (.list []) with
  | .list bs => validateBoards bs 0
  | _ => .ok ["'boards' must be a list"]

/-! ## attachments.py : filename handling -/

/-- `pathlib.Path(p).name`: the final path component (the part after the last
`/`). -/
def lastComponent (s : String) : String :=
  String.mk ((s.data.reverse.takeWhile (fun c => c ≠ '/')).reverse)

/-- The index of the last `.` in a character list (`str.rfind('.')`), if any. -/
def lastDotIdx (cs : List Char) : Option Nat :=
  match cs.reverse.findIdx? (fun c => c = '.') with
  | some j => some (cs.length - 1 - j)
  | none => none

/-- `pathlib`'s stem/suffix split of a path's final component: the suffix runs
from the last dot, provided that dot is neither the first nor the last
character of the name (`"a.jpg" ↦ ("a", ".jpg")`, `".bashrc" ↦ (".bashrc", "")`,
`"file." ↦ ("file.", "")`). -/
def pathSplitExt (p : String) : String × String :=
  let name := lastComponent p
  let cs := name.data
  match lastDotIdx cs with
  | some i =>
    if 0 < i ∧ i < cs.length - 1 then (String.mk (cs.take i), String.mk (cs.drop i))
    else (name, "")
  | none => (name, "")

/-- `Path(p).stem`. -/
def pathStem (p : String) : String := (pathSplitExt p).1

/-- `Path(p).suffix`. -/
def pathSuffix (p : String) : String := (pathSplitExt p).2

/-- Embedding of the attachment-filename sanitizer `sanitize_filename`
(src/trello_sync/services/attachments.py, lines 41-59): stem through
`sanitize_file_name`, extension lowercased and stripped to
alphanumerics/`.`/`-`/`_`, then concatenated. -/
def sanitize_filename (filename : String) : String :=
  let name := pathStem filename
  let ext := String.mk ((pathSuffix filename).data.map Char.toLower)
  let sanitized_name := sanitize_file_name (some name)
  let sanitized_ext :=
    String.mk (ext.data.filter (fun c => c.isAlphanum || c = '.' || c = '-' || c = '_'))
  sanitized_name ++ sanitized_ext

/-- The image extensions of `is_image_file` (attachments.py lines 13-38). -/
def imageExtensions : List String :=
  [".jpg", ".jpeg", ".png", ".gif", ".webp", ".svg", ".bmp", ".ico"]

/-- The image MIME types of `is_image_file`. -/
def imageMimeTypes : List String :=
  ["image/jpeg", "image/png", "image/gif", "image/webp",
   "image/svg+xml", "image/bmp", "image/x-icon", "image/vnd.microsoft.icon"]

/-- Embedding of `is_image_file` (attachments.py lines 13-38). -/
def is_image_file (filename : String) (mime_type : Option String) : Bool :=
  let ext := String.mk ((pathSuffix filename).data.map Char.toLower)
  if imageExtensions.contains ext then true
  else
    match mime_type with
    | some m =>
      -- `if mime_type and ...`: the empty string is falsy
      m.data ≠ [] && imageMimeTypes.contains (String.mk (m.data.map Char.toLower))
    | none => false

/-- Embedding of `get_asset_path` (attachments.py lines 235-257): the sanitized
attachment name inside the assets folder.  The `assets_folder.mkdir` side
effect is not part of the returned value. -/
def get_asset_path (card_path : String) (attachment_name : String) (assets_folder : String) :
    String :=
  assets_folder ++ "/" ++ sanitize_filename attachment_name

/-- The probe path `target_dir / f"{stem}_{counter}{ext}"` of
`get_unique_filename`'s loop. -/
def uniqueProbe (target_dir stem ext : String) (counter : Nat) : String :=
  target_dir ++ "/" ++ (stem ++ "_" ++ Nat.repr counter ++ ext)

/-- The `while True` probing loop of `get_unique_filename` (attachments.py
lines 84-89).  `ex` is the filesystem's existence predicate.  The source loop
has no bound; the fuel argument only makes the embedding total, with `none`
marking a run that would still be probing after `fuel` attempts. -/
def uniqueLoop (ex : String → Bool) (target_dir stem ext : String) :
    Nat → Nat → Option String
  | 0, _ => none
  | fuel + 1, counter =>
    let new_path := uniqueProbe target_dir stem ext counter
    if ex new_path then uniqueLoop ex target_dir stem ext fuel (counter + 1)
    else some new_path

/-- Embedding of `get_unique_filename` (src/trello_sync/services/attachments.py,
lines 62-89). -/
def get_unique_filename (ex : String → Bool) (target_dir filename : String) (fuel : Nat) :
    Option String :=
  let target_path := target_dir ++ "/" ++ filename
  if ex target_path then
    uniqueLoop ex target_dir (pathStem target_path) (pathSuffix target_path) fuel 1
  else some target_path

/-- Decimal digit-string parsing, used only to build concrete finite
filesystems for test inputs. -/
def digitsToNat? (cs : List Char) : Option Nat :=
  if cs ≠ [] ∧ cs.all (fun c => c.isDigit) then
    some (cs.foldl (fun acc c => acc * 10 + (c.toNat - 48)) 0)
  else none

/-! ## trello_sync.py : should_sync_card -/

/-- `s.replace('Z', '+00:00')`: the pattern is a single character, so the
global replacement expands each `Z` in place. -/
def replaceZ : List Char → List Char
  | [] => []
  | c :: rest => (if c = 'Z' then "+00:00".data else [c]) ++ replaceZ rest

/-- Embedding of `should_sync_card` (src/trello_sync/services/trello_sync.py,
lines 242-269).  `fs` maps a path to its mtime when it exists;
`parseIso` models `datetime.fromisoformat` composed with `.replace(tzinfo=None)`
(returning `none` on a `ValueError`), with timestamps as integers; a `none`
`card_updated` models any non-string value. -/
def should_sync_card (fs : String → Option Int) (parseIso : String → Option Int)
    (card_path : String) (card_updated : Option String) : Bool :=
  match fs card_path with
  | none => true
  | some file_mtime =>
    match card_updated with
    | some s =>
      match parseIso (String.mk (replaceZ s.data)) with
      | none => true  -- if we can't parse, sync it
      | some card_updated_dt => decide (file_mtime < card_updated_dt)
    | none => true

/-! ## trello_sync.py : sync_board

The pipeline is embedded as a function from an explicit environment (the
loaded configuration, the remote service's responses, the filesystem, and the
standard-library boundary functions) to `Except` of the final statistics plus
a trace of the effects the source code performs: remote GET requests,
attachment downloads, console warnings, directory creation and file writes.
`generate_markdown` is pure in the source; the write effect records the
rendered card's path and the attachment-link metadata fed to the renderer.
Writes are not folded back into `fs`: `fs` is the filesystem as observed at
the staleness checks and probe tests, which is faithful for every run in which
the sync does not write a path it later re-reads (no claim exercises such a
run). -/

/-- A card as returned by `get_cards_in_list`. -/
structure RemoteCard where
  id : String
  name : String
  dateLastActivity : Option String
deriving DecidableEq

/-- A list (column) as returned by `get_board_lists`, together with the cards
`get_cards_in_list` returns for it. -/
structure RemoteList where
  id : String
  name : String
  cards : List RemoteCard
deriving DecidableEq

/-- An attachment record, fields as accessed with `dict.get` in the source. -/
structure Att where
  id : Option String
  name : Option String
  url : Option String
  isUpload : Bool
  mimeType : Option String
deriving DecidableEq

/-- The board details `get_board` returns: the name, and
`board.get('organization', \x7b\x7d).get('displayName', '')`. -/
structure RemoteBoard where
  name : String
  orgDisplayName : String
deriving DecidableEq

/-- The `\x7btotal_cards, synced_cards, skipped_cards\x7d` result of `sync_board`. -/
structure SyncStats where
  total_cards : Nat
  synced_cards : Nat
  skipped_cards : Nat
deriving DecidableEq

/-- The metadata stored in `downloaded_attachments` for one downloaded
attachment (trello_sync.py lines 436-441). -/
structure DownloadedInfo where
  local_path : String
  is_image : Bool
  original_url : String
  name : String
deriving DecidableEq

/-- The observable effects of a `sync_board` run.  `hydrateCard` stands for the
six per-card GETs (`get_card` and its five sub-resource fetches). -/
inductive Effect where
  | getBoard (board_id : String)
  | getLists (board_id : String)
  | getCards (list_id : String)
  | hydrateCard (card_id : String)
  | download (att_id : String)
  | warn (att_name : String)
  | mkdirE (path : String)
  | writeFile (path : String) (downloaded : List (String × DownloadedInfo))
deriving DecidableEq

/-- Failures that abort `sync_board`: the `ConfigError` for a missing vault
root, any exception during card hydration or file writing (re-raised at
trello_sync.py line 464), and—an artifact of the fuel-based embedding of the
unbounded probe loop—`noFuel`, marking a run on which the source would still
be probing filenames. -/
inductive SyncErr where
  | configE
  | cardFailure
  | noFuel
deriving DecidableEq

/-- The environment a `sync_board` run reads. -/
structure SyncEnv where
  /-- the `boards:` list of the loaded configuration -/
  boards : List BoardConfig
  /-- the global `default_assets_folder` config value, if present -/
  default_assets_folder : Option String
  /-- the resolved vault root; `none` models `get_obsidian_root` raising -/
  obsidian_root : Option String
  /-- the response of `get_board(board_id)` -/
  board : RemoteBoard
  /-- `get_board_lists(board_id)`, each with its `get_cards_in_list` response -/
  lists : List RemoteList
  /-- the filesystem: path to mtime when the path exists -/
  fs : String → Option Int
  /-- `datetime.fromisoformat` with tz discarded; `none` on `ValueError` -/
  parseIso : String → Option Int
  /-- the attachments `get_card(id)` and its sub-fetches return; `none`
  models an exception raised while hydrating the card -/
  hydrate : String → Option (List Att)
  /-- whether `download_attachment` for the attachment with this id succeeds -/
  downloadOk : String → Bool
  /-- `os.path.relpath(asset_path, card_path.parent)` with `/` separators -/
  relpath : String → String → String
  /-- fuel for the unbounded filename-probing loop -/
  uniqueFuel : Nat

/-- Python's `x or default` on strings: the empty string is falsy. -/
def orDefault (s defaultV : String) : String :=
  if s = "" then defaultV else s

/-- Python's truthiness of an optional string (`None` and `''` are falsy). -/
def truthyOpt (o : Option String) : Bool :=
  match o with
  | some s => s ≠ ""
  | none => false

/-- The per-board context `sync_board` resolves before iterating (trello_sync.py
lines 311-339). -/
structure ResolvedCtx where
  board_id : String
  board_name : String
  workspace_name : String
  obsidian_root : String
  target_path_template : String
  assets_template : String
  dry_run : Bool

/-- The `path_vars` mapping of trello_sync.py lines 362-367. -/
def pathVars (rc : ResolvedCtx) (list_name : String) (card : RemoteCard) :
    List (String × String) :=
  [("org", sanitize_file_name (some (orDefault rc.workspace_name "unknown"))),
   ("board", sanitize_file_name (some rc.board_name)),
   ("column", sanitize_file_name (some list_name)),
   ("card", sanitize_file_name (some card.name))]

/-- The card's destination path (trello_sync.py lines 369-370). -/
def cardPath (rc : ResolvedCtx) (list_name : String) (card : RemoteCard) : String :=
  rc.obsidian_root ++ "/" ++ resolve_path_template rc.target_path_template (pathVars rc list_name card)

/-- `card_path.parent` rendered as a string (drop the final component). -/
def parentDir (p : String) : String :=
  String.mk ((p.data.reverse.dropWhile (fun c => c ≠ '/')).reverse.dropLast)

/-- The resolved assets folder for a card (trello_sync.py lines 404-410). -/
def assetsFolder (rc : ResolvedCtx) : String :=
  rc.obsidian_root ++ "/" ++
    resolve_path_template rc.assets_template
      [("org", sanitize_file_name (some (orDefault rc.workspace_name "unknown"))),
       ("board", sanitize_file_name (some rc.board_name))]

/-- The attachment loop of trello_sync.py lines 412-444, threading the
`downloaded_attachments` mapping and the effect trace.  Each upload-type
attachment with a truthy URL runs the `try` block (asset-path computation,
filename uniquing, download); any failure inside it is caught: a console
warning is printed and the loop continues with no record for that attachment. -/
def processAtts (env : SyncEnv) (card_path assets_folder : String) :
    List Att → List (String × DownloadedInfo) → List Effect →
    Except SyncErr (List (String × DownloadedInfo) × List Effect)
  | [], downloaded, tr => .ok (downloaded, tr)
  | att :: rest, downloaded, tr =>
    if att.isUpload then
      let attachment_name := att.name.getD "untitled"
      let attachment_url := att.url.getD ""
      if attachment_url ≠ "" then
        let asset0 := get_asset_path card_path attachment_name assets_folder
        match get_unique_filename (fun p => (env.fs p).isSome) assets_folder
            (lastComponent asset0) env.uniqueFuel with
        | none => .error .noFuel
        | some asset_path =>
          let attId := att.id.getD ""
          if env.downloadOk attId then
            let relative_path := env.relpath asset_path card_path
            let info : DownloadedInfo :=
              { local_path := relative_path,
                is_image := is_image_file attachment_name att.mimeType,
                original_url := attachment_url,
                name := attachment_name }
            processAtts env card_path assets_folder rest (downloaded ++ [(attId, info)])
              (tr ++ [.download attId])
          else
            processAtts env card_path assets_folder rest downloaded
              (tr ++ [.warn attachment_name])
      else processAtts env card_path assets_folder rest downloaded tr
    else processAtts env card_path assets_folder rest downloaded tr

/-- One card of the inner loop of `sync_board` (trello_sync.py lines 355-464). -/
def syncCard (env : SyncEnv) (rc : ResolvedCtx) (list_name : String) (card : RemoteCard)
    (st : SyncStats) (tr : List Effect) : Except SyncErr (SyncStats × List Effect) :=
  let st := { st with total_cards := st.total_cards + 1 }
  let card_path := cardPath rc list_name card
  if ¬ (should_sync_card env.fs env.parseIso card_path card.dateLastActivity = true) then
    .ok ({ st with skipped_cards := st.skipped_cards + 1 }, tr)
  else if rc.dry_run then
    .ok ({ st with synced_cards := st.synced_cards + 1 }, tr)
  else
    match env.hydrate card.id with
    | none => .error .cardFailure
    | some attachments =>
      match processAtts env card_path (assetsFolder rc) attachments []
          (tr ++ [.hydrateCard card.id]) with
      | .error e => .error e
      | .ok (downloaded, tr2) =>
        .ok ({ st with synced_cards := st.synced_cards + 1 },
          tr2 ++ [.mkdirE (parentDir card_path), .writeFile card_path downloaded])

/-- The cards of one list (trello_sync.py lines 355-464). -/
def syncCards (env : SyncEnv) (rc : ResolvedCtx) (list_name : String) :
    List RemoteCard → SyncStats → List Effect → Except SyncErr (SyncStats × List Effect)
  | [], st, tr => .ok (st, tr)
  | card :: rest, st, tr =>
    match syncCard env rc list_name card st tr with
    | .error e => .error e
    | .ok (st2, tr2) => syncCards env rc list_name rest st2 tr2

/-- The list loop of `sync_board` (trello_sync.py lines 348-464); each list
costs one `get_cards_in_list` request. -/
def syncLists (env : SyncEnv) (rc : ResolvedCtx) :
    List RemoteList → SyncStats → List Effect → Except SyncErr (SyncStats × List Effect)
  | [], st, tr => .ok (st, tr)
  | l :: rest, st, tr =>
    match syncCards env rc l.name l.cards st (tr ++ [.getCards l.id]) with
    | .error e => .error e
    | .ok (st2, tr2) => syncLists env rc rest st2 tr2

/-- The per-board context `sync_board` resolves at trello_sync.py lines
311-339: the board name (fetched when the caller passes a falsy one), the
workspace name (fetched likewise, with the configuration's `workspace_name`
winning over the fetched organization name), the vault root and the two path
templates with their defaults. -/
def resolvedCtx (env : SyncEnv) (board_id : String)
    (board_name workspace_name : Option String) (board_config : BoardConfig)
    (root : String) (dry_run : Bool) : ResolvedCtx :=
  { board_id := board_id,
    board_name := if truthyOpt board_name then board_name.getD "" else env.board.name,
    workspace_name :=
      if truthyOpt workspace_name then workspace_name.getD ""
      else if truthyOpt board_config.workspace_name then board_config.workspace_name.getD ""
      else env.board.orgDisplayName,
    obsidian_root := root,
    target_path_template :=
      board_config.target_path.getD
        "20_tasks/Trello/\x7borg\x7d/\x7bboard\x7d/\x7bcolumn\x7d/\x7bcard\x7d.md",
    assets_template :=
      orDefault (board_config.assets_folder.getD "")
        (env.default_assets_folder.getD ".local_assets/Trello"),
    dry_run := dry_run }

/-- Embedding of `sync_board` (src/trello_sync/services/trello_sync.py, lines
271-470).  A falsy caller-supplied board name costs one `get_board` fetch and a
falsy workspace name a second, independent `get_board` fetch (lines 312-318
re-request the board). -/
def sync_board (env : SyncEnv) (board_id : String)
    (board_name workspace_name : Option String) (dry_run : Bool) :
    Except SyncErr (SyncStats × List Effect) :=
  match get_board_config env.boards board_id with
  | none =>
    -- Board not configured - skip it
    .ok (⟨0, 0, 0⟩, [])
  | some board_config =>
    if board_config.enabled.getD true = false then
      -- Board is disabled - skip it
      .ok (⟨0, 0, 0⟩, [])
    else
      let tr0 : List Effect :=
        (if truthyOpt board_name then [] else [.getBoard board_id]) ++
        (if truthyOpt workspace_name then [] else [.getBoard board_id])
      match env.obsidian_root with
      | none => .error .configE
      | some root =>
        syncLists env
          (resolvedCtx env board_id board_name workspace_name board_config root dry_run)
          env.lists ⟨0, 0, 0⟩ (tr0 ++ [.getLists board_id])

/-! ## Batch attachment processing (spec-modelled) -/

/-- A processed attachment record: the original attachment plus the fields the
batch processor may add. -/
structure ProcessedAtt where
  att : Att
  local_path : Option String
  is_image : Option Bool
  asset_path : Option String
  download_error : Option String
deriving DecidableEq

/-- Modelled from the spec: `process_attachments` (spec §4.3, batch path) is
referenced by the repository's test suite but its definition is not under
src/.  Per the spec, link-type attachments and upload-type attachments lacking
a usable URL pass through unchanged; every other upload-type attachment is
downloaded — on success the record gains `local_path`, `is_image` and
`asset_path`, on any exception it instead gains a `download_error` field
holding the failure's message, and processing continues with the remaining
attachments.  `dl` abstracts the download (asset-path computation, uniquing
and transfer), returning the stored asset path or the failure's message;
`relp` abstracts the vault-relative link computation. -/
def processOne (dl : Att → Except String String) (relp : String → String) (a : Att) :
    ProcessedAtt :=
  if a.isUpload && a.url.getD "" ≠ "" then
    match dl a with
    | .ok asset_path =>
      { att := a, local_path := some (relp asset_path),
        is_image := some (is_image_file (a.name.getD "untitled") a.mimeType),
        asset_path := some asset_path, download_error := none }
    | .error msg =>
      { att := a, local_path := none, is_image := none, asset_path := none,
        download_error := some msg }
  else
    { att := a, local_path := none, is_image := none, asset_path := none,
      download_error := none }

/-- Modelled from the spec: the batch loop of `process_attachments` — each
attachment is processed independently, a failure never aborting the batch. -/
def process_attachments (dl : Att → Except String String) (relp : String → String)
    (atts : List Att) : List ProcessedAtt :=
  atts.map (processOne dl relp)

/-! ## Concrete inputs for counterexamples and witnesses -/

/-- A configuration whose only entry for `board456` is disabled. -/
def cfgDisabled : List BoardConfig :=
  [{ board_id := some "board123", enabled := some true, workspace_name := none,
     target_path := some "test/\x7bboard\x7d/\x7bcard\x7d.md", assets_folder := none },
   { board_id := some "board456", enabled := some false, workspace_name := none,
     target_path := none, assets_folder := none }]

/-- The `board456` entry of `cfgDisabled`. -/
def disabledEntry : BoardConfig :=
  { board_id := some "board456", enabled := some false, workspace_name := none,
    target_path := none, assets_folder := none }

/-- A directory holding `a` and `a_1` … `a_1000` (with up to four digits after
the underscore), under a directory `d`: 1001 names colliding with the probe
sequence for filename `a`. -/
def probeHeavyFS : String → Bool := fun s =>
  let cs := s.data
  cs == "d/a".data ||
    ("d/a_".data.isPrefixOf cs &&
      (match digitsToNat? (cs.drop 4) with
       | some n => decide (1 ≤ n) && decide (n ≤ 1000) && decide (cs.length ≤ 8)
       | none => false))

/-- A structurally conformant configuration that nevertheless carries a
non-boolean `enabled`, a non-string `obsidian_root` and a non-string
`default_assets_folder`. -/
def illTypedCfg : List (String × YVal) :=
  [("obsidian_root", YVal.int 5),
   ("default_assets_folder", YVal.boolean true),
   ("boards", YVal.list [YVal.map
     [("board_id", YVal.str "b1"),
      ("enabled", YVal.str "yes"),
      ("target_path", YVal.str "x/\x7borg\x7d/\x7bboard\x7d/\x7bcolumn\x7d/\x7bcard\x7d.md")]])]

/-- An attachment filename with a 251-character extension. -/
def longExtName : String := "a." ++ String.mk (List.replicate 250 'x')

/-- A two-card, one-list remote board used by the dry-run and invariant
witnesses. -/
def envWitness : SyncEnv :=
  { boards := [{ board_id := some "b1", enabled := some true, workspace_name := some "Acme",
                 target_path := none, assets_folder := none }],
    default_assets_folder := none,
    obsidian_root := some "/vault",
    board := { name := "Roadmap", orgDisplayName := "Acme Inc" },
    lists := [{ id := "l1", name := "Todo",
                cards := [{ id := "c1", name := "Ship it", dateLastActivity := some "2024-01-20T12:00:00Z" },
                          { id := "c2", name := "Test it", dateLastActivity := none }] }],
    fs := fun _ => none,
    parseIso := fun _ => none,
    hydrate := fun _ => some [],
    downloadOk := fun _ => true,
    relpath := fun a _ => a,
    uniqueFuel := 10 }

/-- An environment with one stale card carrying two upload attachments, the
first of which fails to download. -/
def envAttFail : SyncEnv :=
  { boards := [{ board_id := some "b1", enabled := some true, workspace_name := some "Acme",
                 target_path := none, assets_folder := none }],
    default_assets_folder := none,
    obsidian_root := some "/vault",
    board := { name := "Roadmap", orgDisplayName := "Acme Inc" },
    lists := [{ id := "l1", name := "Todo",
                cards := [{ id := "c1", name := "Ship it", dateLastActivity := none }] }],
    fs := fun _ => none,
    parseIso := fun _ => none,
    hydrate := fun cid =>
      if cid = "c1" then
        some [{ id := some "at1", name := some "bad.pdf", url := some "http://x/bad.pdf",
                isUpload := true, mimeType := some "application/pdf" },
              { id := some "at2", name := some "pic.png", url := some "http://x/pic.png",
                isUpload := true, mimeType := some "image/png" }]
      else none,
    downloadOk := fun attId => attId ≠ "at1",
    relpath := fun a _ => a,
    uniqueFuel := 10 }

/-! ## Auxiliary definitions for the statements -/

/-- Effects that are plain read-only fetches (no download, no warning, no
filesystem mutation, no per-card hydration). -/
def fetchEffect : Effect → Bool
  | .getBoard _ => true
  | .getLists _ => true
  | .getCards _ => true
  | _ => false

/-- The number of cards a board's lists hold. -/
def totalOf (lists : List RemoteList) : Nat :=
  (lists.map (fun l => l.cards.length)).sum

/-- Restatement of the `target_path` placeholder check that `validate_config`
performs, as a predicate (spec wording, for the refinement comparison). -/
def hasAllPlaceholders (t : String) : Bool :=
  requiredVars.all (fun v => containsSub ("\x7b" ++ v ++ "\x7d").data t.data)

/-- Does this board entry avoid the uncaught `TypeError` path (its
`target_path`, when present, is a string)? -/
def entryTargetTyped (b : YVal) : Bool :=
  match b with
  | .map kvs =>
    match yget kvs "target_path" with
    | some (.str _) => true
    | some _ => false
    | none => true
  | _ => true

/-- Restatement, following the spec's words, of the per-entry rules
`validate_config` actually checks: the entry is a mapping, carries `board_id`,
and its `target_path` (when present, a string) contains all four placeholders.
Used to compare the code's behaviour with the claimed rule set. -/
def entryOk (b : YVal) : Bool :=
  match b with
  | .map kvs =>
    (yget kvs "board_id").isSome &&
      (match yget kvs "target_path" with
       | some (.str t) => hasAllPlaceholders t
       | some _ => false
       | none => true)
  | _ => false

/-- The full checked-rule set of `validate_config`: `boards` is a list and
every entry passes `entryOk`. -/
def checkedRulesOk (config : List (String × YVal)) : Bool :=
  match (yget config "boards").getD (.list []) with
  | .list bs => bs.all entryOk
  | _ => false

/-- No entry of `boards` triggers the non-string-`target_path` crash. -/
def targetPathsTyped (config : List (String × YVal)) : Bool :=
  match (yget config "boards").getD (.list []) with
  | .list bs => bs.all entryTargetTyped
  | _ => true

/-- A fully conformant configuration (mirrors the repository's
`test_validate_config_valid` fixture). -/
def goodCfg : List (String × YVal) :=
  [("boards", YVal.list [YVal.map
     [("board_id", YVal.str "board123"),
      ("target_path", YVal.str "test/\x7borg\x7d/\x7bboard\x7d/\x7bcolumn\x7d/\x7bcard\x7d.md")]])]

/-- The failing upload attachment of `envAttFail`. -/
def attBad : Att :=
  { id := some "at1", name := some "bad.pdf", url := some "http://x/bad.pdf",
    isUpload := true, mimeType := some "application/pdf" }

/-! # Theorems

Helper lemmas come first; one theorem per claim follows, each marked with its
claim id. -/

theorem string_mk_length (l : List Char) : (String.mk l).length = l.length := rfl

theorem replaceDoubleDash_length_le : ∀ l : List Char,
    (replaceDoubleDash l).length ≤ l.length
  | [] => by simp [replaceDoubleDash]
  | [c] => by simp [replaceDoubleDash]
  | c1 :: c2 :: rest => by
    have h1 := replaceDoubleDash_length_le rest
    have h2 := replaceDoubleDash_length_le (c2 :: rest)
    by_cases h : c1 = '-' ∧ c2 = '-'
    · simp only [replaceDoubleDash, if_pos h, List.length_cons]
      simp at h2 ⊢
      omega
    · simp only [replaceDoubleDash, if_neg h, List.length_cons]
      simp at h2 ⊢
      omega

theorem collapseFuel_length_le : ∀ (n : Nat) (l : List Char),
    (collapseFuel n l).length ≤ l.length
  | 0, l => le_refl _
  | n + 1, l => by
    by_cases h : hasDoubleDash l = true
    · have ih := collapseFuel_length_le n (replaceDoubleDash l)
      have h2 := replaceDoubleDash_length_le l
      simp only [collapseFuel, if_pos h]
      omega
    · simp only [collapseFuel, if_neg h]
      exact le_refl _

theorem dropWhile_length_le (p : Char → Bool) : ∀ l : List Char,
    (l.dropWhile p).length ≤ l.length
  | [] => by simp
  | c :: rest => by
    by_cases h : p c
    · have := dropWhile_length_le p rest
      simp only [List.dropWhile_cons, h, if_pos]
      simp
      omega
    · simp [List.dropWhile_cons, h]

theorem pyStrip_length_le (p : Char → Bool) (l : List Char) :
    (pyStrip p l).length ≤ l.length := by
  unfold pyStrip
  have h1 : (l.dropWhile p).length ≤ l.length := dropWhile_length_le p l
  have h2 : ((l.dropWhile p).reverse.dropWhile p).length ≤ (l.dropWhile p).reverse.length :=
    dropWhile_length_le p (l.dropWhile p).reverse
  simp only [List.length_reverse] at *
  omega

theorem sanitizeCore_length_le (cs : List Char) : (sanitizeCore cs).length ≤ 100 := by
  simp only [sanitizeCore]
  split
  · simp
  · omega

theorem sanitize_file_name_length_le (name : Option String) :
    (sanitize_file_name name).length ≤ 100 := by
  match name with
  | none => decide
  | some s =>
    show (if s.data = [] then "untitled"
      else if sanitizeCore s.data = [] then "untitled"
      else String.mk (sanitizeCore s.data)).length ≤ 100
    by_cases h0 : s.data = []
    · rw [if_pos h0]; decide
    · rw [if_neg h0]
      by_cases h1 : sanitizeCore s.data = []
      · rw [if_pos h1]; decide
      · rw [if_neg h1, string_mk_length]
        exact sanitizeCore_length_le s.data

theorem sanitize_file_name_ne_empty (name : Option String) :
    sanitize_file_name name ≠ "" := by
  match name with
  | none => decide
  | some s =>
    show (if s.data = [] then "untitled"
      else if sanitizeCore s.data = [] then "untitled"
      else String.mk (sanitizeCore s.data)) ≠ ""
    by_cases h0 : s.data = []
    · rw [if_pos h0]; decide
    · rw [if_neg h0]
      by_cases h1 : sanitizeCore s.data = []
      · rw [if_pos h1]; decide
      · rw [if_neg h1]
        intro heq
        apply h1
        have hd : (String.mk (sanitizeCore s.data)).data = ("" : String).data := by rw [heq]
        simpa using hd

/-- C5: `sanitize_file_name` lowercases, strips, keeps only alphanumerics,
spaces and hyphens, hyphenates spaces, collapses and trims hyphens, truncates
to 100 characters and falls back to `"untitled"` for an absent or empty-after-
sanitization input; in particular `"Test Card Name" ↦ "test-card-name"` and a
150-character alphanumeric input maps to exactly 100 characters. -/
theorem C5_sanitize_file_name_spec :
    sanitize_file_name (some "Test Card Name") = "test-card-name" ∧
    sanitize_file_name none = "untitled" ∧
    sanitize_file_name (some "") = "untitled" ∧
    sanitize_file_name (some "!!!") = "untitled" ∧
    sanitize_file_name (some "  Hello -- World!! ") = "hello-world" ∧
    (sanitize_file_name (some (String.mk (List.replicate 150 'a')))).length = 100 ∧
    (∀ name : Option String, (sanitize_file_name name).length ≤ 100) ∧
    (∀ name : Option String, sanitize_file_name name ≠ "") :=
  ⟨by decide, by decide, by decide, by decide, by decide, by decide,
   sanitize_file_name_length_le, sanitize_file_name_ne_empty⟩

/-- C2: `should_sync_card` is true when the file does not exist; with an
existing file it is true when the timestamp is not a string or fails parsing
(after the `Z` normalization), and otherwise true exactly when the parsed
timestamp is strictly later than the file's mtime — equal or earlier
timestamps give false. -/
theorem C2_should_sync_card_spec (fs : String → Option Int) (parseIso : String → Option Int)
    (card_path : String) :
    (fs card_path = none → ∀ upd, should_sync_card fs parseIso card_path upd = true) ∧
    (∀ m : Int, fs card_path = some m →
      should_sync_card fs parseIso card_path none = true) ∧
    (∀ (m : Int) (s : String), fs card_path = some m →
      parseIso (String.mk (replaceZ s.data)) = none →
      should_sync_card fs parseIso card_path (some s) = true) ∧
    (∀ (m t : Int) (s : String), fs card_path = some m →
      parseIso (String.mk (replaceZ s.data)) = some t →
      (should_sync_card fs parseIso card_path (some s) = true ↔ m < t)) ∧
    (∀ (m t : Int) (s : String), fs card_path = some m →
      parseIso (String.mk (replaceZ s.data)) = some t → t ≤ m →
      should_sync_card fs parseIso card_path (some s) = false) := by
  refine ⟨?_, ?_, ?_, ?_, ?_⟩
  · intro h upd
    simp [should_sync_card, h]
  · intro m h
    simp [should_sync_card, h]
  · intro m s h hp
    simp [should_sync_card, h, hp]
  · intro m t s h hp
    simp [should_sync_card, h, hp]
  · intro m t s h hp hle
    simp [should_sync_card, h, hp]
    omega

theorem C2_witness :
    should_sync_card (fun _ => none) (fun _ => none) "p" (some "x") = true ∧
    should_sync_card (fun _ => some 5) (fun _ => some 9) "p" (some "2024") = true ∧
    should_sync_card (fun _ => some 9) (fun _ => some 9) "p" (some "2024") = false ∧
    should_sync_card (fun _ => some 9) (fun _ => some 5) "p" (some "2024") = false :=
  ⟨(C2_should_sync_card_spec _ _ "p").1 rfl _,
   ((C2_should_sync_card_spec _ _ "p").2.2.2.1 5 9 "2024" rfl rfl).mpr (by norm_num),
   (C2_should_sync_card_spec _ _ "p").2.2.2.2 9 9 "2024" rfl rfl (by norm_num),
   (C2_should_sync_card_spec _ _ "p").2.2.2.2 9 5 "2024" rfl rfl (by norm_num)⟩

/-- C1: `sync_board` on a board whose configuration is absent, or whose
matching entry is disabled, returns `\x7btotal_cards: 0, synced_cards: 0,
skipped_cards: 0\x7d` with an empty effect trace — zero remote requests. -/
theorem C1_sync_board_skips_unconfigured (env : SyncEnv) (board_id : String)
    (board_name workspace_name : Option String) (dry_run : Bool)
    (h : get_board_config env.boards board_id = none ∨
      ∃ bc, get_board_config env.boards board_id = some bc ∧ bc.enabled = some false) :
    sync_board env board_id board_name workspace_name dry_run = .ok (⟨0, 0, 0⟩, []) := by
  rcases h with h | ⟨bc, hbc, he⟩
  · simp [sync_board, h]
  · simp [sync_board, hbc, he]

theorem C1_witness :
    sync_board envWitness "not-configured" none none false = .ok (⟨0, 0, 0⟩, []) ∧
    sync_board { envWitness with boards := cfgDisabled } "board456" none none true
      = .ok (⟨0, 0, 0⟩, []) :=
  ⟨C1_sync_board_skips_unconfigured envWitness "not-configured" none none false
     (Or.inl (by decide)),
   C1_sync_board_skips_unconfigured { envWitness with boards := cfgDisabled }
     "board456" none none true
     (Or.inr ⟨disabledEntry, by decide, by decide⟩)⟩

/-- C3 counterexample: `get_board_config` applied to a configuration whose
matching `board456` entry has `enabled: false` returns that entry — not an
absent value, as the claim requires. -/
theorem C3_counterexample :
    get_board_config cfgDisabled "board456" = some disabledEntry ∧
    disabledEntry.enabled = some false ∧
    get_board_config cfgDisabled "board456" ≠ none := by
  refine ⟨by decide, by decide, by decide⟩

/-- C3 (amended): `get_board_config` returns the first entry whose `board_id`
matches the requested id, regardless of the entry's `enabled` flag; only a
configuration with no matching entry at all yields an absent value.  The third
conjunct makes the independence from `enabled` explicit: rewriting every
entry's `enabled` field commutes with the lookup. -/
theorem C3_get_board_config_ignores_enabled (boards : List BoardConfig) (bid : String) :
    (∀ bc, get_board_config boards bid = some bc → bc.board_id = some bid) ∧
    (get_board_config boards bid = none ↔ ∀ bc ∈ boards, bc.board_id ≠ some bid) ∧
    (∀ e : Option Bool,
      get_board_config (boards.map (fun bc => { bc with enabled := e })) bid
        = (get_board_config boards bid).map (fun bc => { bc with enabled := e })) := by
  refine ⟨?_, ?_, ?_⟩
  · intro bc h
    have := List.find?_some h
    simpa using this
  · unfold get_board_config
    rw [List.find?_eq_none]
    simp
  · intro e
    unfold get_board_config
    rw [List.find?_map]
    rfl

theorem C3_witness :
    disabledEntry.board_id = some "board456" :=
  (C3_get_board_config_ignores_enabled cfgDisabled "board456").1 disabledEntry (by decide)

/-- C4 counterexample: a directory holding `a` and `a_1` … `a_1000` (1001
colliding names).  The source's probe loop simply continues past the claimed
1,000-attempt bound and returns the 1001st probe `d/a_1001` as a usable path —
no error is ever raised. -/
theorem C4_counterexample :
    get_unique_filename probeHeavyFS "d" "a" 1002 = some "d/a_1001" ∧
    probeHeavyFS "d/a" = true ∧
    probeHeavyFS "d/a_1" = true ∧
    probeHeavyFS "d/a_1000" = true ∧
    probeHeavyFS "d/a_1001" = false := by
  refine ⟨by decide, by decide, by decide, by decide, by decide⟩

theorem uniqueLoop_finds (ex : String → Bool) (target_dir stem ext : String) :
    ∀ (fuel counter k : Nat), counter ≤ k → k - counter < fuel →
      (∀ j, counter ≤ j → j < k → ex (uniqueProbe target_dir stem ext j) = true) →
      ex (uniqueProbe target_dir stem ext k) = false →
      uniqueLoop ex target_dir stem ext fuel counter
        = some (uniqueProbe target_dir stem ext k)
  | 0, counter, k => by omega
  | fuel + 1, counter, k => by
    intro hck hfuel hbusy hfree
    by_cases heq : counter = k
    · subst heq
      simp [uniqueLoop, hfree]
    · have hlt : counter < k := by omega
      have hex : ex (uniqueProbe target_dir stem ext counter) = true :=
        hbusy counter (le_refl _) hlt
      simp only [uniqueLoop, hex, if_pos]
      exact uniqueLoop_finds ex target_dir stem ext fuel (counter + 1) k
        (by omega) (by omega) (fun j h1 h2 => hbusy j (by omega) h2) hfree

/-- C4 (amended): `get_unique_filename` returns `targetDir/filename` when that
path does not exist, and otherwise the first probe `stem_k.ext`
(k = 1, 2, … in increasing order) that does not exist; the source applies no
1,000-probe bound and raises no error — probing continues indefinitely while
names collide (so the loop terminates only when some probe is free, as the
fuel-indexed embedding makes explicit). -/
theorem C4_get_unique_filename_first_free (ex : String → Bool) (dir fn : String)
    (fuel k : Nat) :
    (ex (dir ++ "/" ++ fn) = false →
      get_unique_filename ex dir fn fuel = some (dir ++ "/" ++ fn)) ∧
    (ex (dir ++ "/" ++ fn) = true → 1 ≤ k → k ≤ fuel →
      (∀ j, 1 ≤ j → j < k →
        ex (uniqueProbe dir (pathStem (dir ++ "/" ++ fn)) (pathSuffix (dir ++ "/" ++ fn)) j)
          = true) →
      ex (uniqueProbe dir (pathStem (dir ++ "/" ++ fn)) (pathSuffix (dir ++ "/" ++ fn)) k)
        = false →
      get_unique_filename ex dir fn fuel
        = some (uniqueProbe dir (pathStem (dir ++ "/" ++ fn))
            (pathSuffix (dir ++ "/" ++ fn)) k)) := by
  constructor
  · intro h
    simp [get_unique_filename, h]
  · intro h hk hfuel hbusy hfree
    simp only [get_unique_filename, h, if_pos]
    exact uniqueLoop_finds ex dir _ _ fuel 1 k hk (by omega) hbusy hfree

theorem C4_witness :
    get_unique_filename (fun s => s == "d/t.jpg") "d" "t.jpg" 5
      = some (uniqueProbe "d" (pathStem "d/t.jpg") (pathSuffix "d/t.jpg") 1) ∧
    get_unique_filename (fun _ => false) "d" "t.jpg" 5 = some "d/t.jpg" :=
  ⟨(C4_get_unique_filename_first_free (fun s => s == "d/t.jpg") "d" "t.jpg" 5 1).2
     (by decide) (by decide) (by decide) (fun j h1 h2 => absurd (lt_of_le_of_lt h1 h2)
       (by decide)) (by decide),
   (C4_get_unique_filename_first_free (fun _ => false) "d" "t.jpg" 5 1).1 rfl⟩

/-- C9 counterexample: an attachment name `a.` followed by 250 `x`s.  The
sanitized result keeps the whole 251-character extension after the 1-character
stem: 252 characters in total — no 200-character cap is applied anywhere in
`sanitize_filename`. -/
theorem C9_counterexample :
    (sanitize_filename longExtName).length = 252 ∧ 200 < (sanitize_filename longExtName).length := by
  refine ⟨by decide, by decide⟩

/-- C9 (amended): `sanitize_filename` passes the stem through the shared name
sanitizer (capping the stem at 100 characters), lowercases the extension and
drops every extension character that is not alphanumeric, `.`, `-` or `_`, and
concatenates the two — preserving the extension but applying no overall
200-character cap: the only length guarantee is 100 plus the (unbounded)
extension length. -/
theorem C9_sanitize_filename_shape (filename : String) :
    sanitize_filename filename
      = sanitize_file_name (some (pathStem filename))
          ++ String.mk (((pathSuffix filename).data.map Char.toLower).filter
              (fun c => c.isAlphanum || c = '.' || c = '-' || c = '_')) ∧
    (sanitize_filename filename).length ≤ 100 + (pathSuffix filename).length := by
  constructor
  · rfl
  · have h1 : (sanitize_file_name (some (pathStem filename))).length ≤ 100 :=
      sanitize_file_name_length_le _
    have h2 : (((pathSuffix filename).data.map Char.toLower).filter
        (fun c => c.isAlphanum || c = '.' || c = '-' || c = '_')).length
        ≤ (pathSuffix filename).length := by
      calc (((pathSuffix filename).data.map Char.toLower).filter
            (fun c => c.isAlphanum || c = '.' || c = '-' || c = '_')).length
          ≤ ((pathSuffix filename).data.map Char.toLower).length :=
            List.length_filter_le _ _
        _ = (pathSuffix filename).data.length := List.length_map _ _
        _ = (pathSuffix filename).length := rfl
    have heq : sanitize_filename filename
        = sanitize_file_name (some (pathStem filename))
            ++ String.mk (((pathSuffix filename).data.map Char.toLower).filter
                (fun c => c.isAlphanum || c = '.' || c = '-' || c = '_')) := rfl
    rw [heq]
    have hlen : (sanitize_file_name (some (pathStem filename))
        ++ String.mk (((pathSuffix filename).data.map Char.toLower).filter
            (fun c => c.isAlphanum || c = '.' || c = '-' || c = '_'))).length
        = (sanitize_file_name (some (pathStem filename))).length
          + (((pathSuffix filename).data.map Char.toLower).filter
              (fun c => c.isAlphanum || c = '.' || c = '-' || c = '_')).length := by
      simp [String.length_append]
    omega

/-- C6 counterexample: a configuration carrying a non-boolean `enabled`, a
non-string `obsidian_root` and a non-string `default_assets_folder` (every
property the claim says gets flagged) passes `validate_config` with zero
violations: the source only checks the `boards` shape, `board_id` presence and
the `target_path` placeholders. -/
theorem C6_counterexample :
    validate_config illTypedCfg = .ok [] ∧
    yget illTypedCfg "obsidian_root" = some (YVal.int 5) ∧
    yget illTypedCfg "default_assets_folder" = some (YVal.boolean true) ∧
    yget illTypedCfg "boards" = some (YVal.list [YVal.map
      [("board_id", YVal.str "b1"),
       ("enabled", YVal.str "yes"),
       ("target_path", YVal.str "x/\x7borg\x7d/\x7bboard\x7d/\x7bcolumn\x7d/\x7bcard\x7d.md")]]) :=
  ⟨rfl, rfl, rfl, rfl⟩

theorem placeholderErrors_eq_nil (kvs : List (String × YVal)) (t : String) :
    placeholderErrors kvs t = [] ↔ hasAllPlaceholders t = true := by
  unfold placeholderErrors hasAllPlaceholders
  rw [List.filterMap_eq_nil_iff, List.all_eq_true]
  constructor
  · intro h v hv
    have h2 := h v hv
    by_cases hc : containsSub ("\x7b" ++ v ++ "\x7d").data t.data = true
    · exact hc
    · rw [if_neg hc] at h2
      exact absurd h2 (by simp)
  · intro h v hv
    rw [if_pos (h v hv)]

theorem validateBoards_ok : ∀ (bs : List YVal) (i : Nat),
    (∀ b ∈ bs, entryTargetTyped b = true) →
    ∃ msgs, validateBoards bs i = .ok msgs ∧ (msgs = [] ↔ bs.all entryOk = true)
  | [], i => by
    intro _
    exact ⟨[], rfl, by simp⟩
  | b :: rest, i => by
    intro ht
    obtain ⟨tail, htail, hiff⟩ :=
      validateBoards_ok rest (i + 1) (fun x hx => ht x (List.mem_cons_of_mem _ hx))
    have htb : entryTargetTyped b = true := ht b (List.mem_cons_self _ _)
    match b with
    | .map kvs =>
      rcases htp : yget kvs "target_path" with _ | yv
      · refine ⟨(if (yget kvs "board_id").isNone then
            [s!"Board config at index {i} missing 'board_id'"] else []) ++ tail,
          ?_, ?_⟩
        · simp only [validateBoards, htp, htail]
        · by_cases hbid : (yget kvs "board_id").isNone
          · simp [hbid, entryOk, htp, Option.isNone_iff_eq_none.mp hbid]
          · simp only [if_neg hbid, List.nil_append, hiff, List.all_cons, entryOk, htp]
            have : (yget kvs "board_id").isSome = true := by
              cases hx : yget kvs "board_id"
              · exact absurd (by simp [hx]) hbid
              · simp
            simp [this]
      · match yv with
        | .str t =>
          refine ⟨(if (yget kvs "board_id").isNone then
              [s!"Board config at index {i} missing 'board_id'"] else [])
              ++ placeholderErrors kvs t ++ tail, ?_, ?_⟩
          · simp only [validateBoards, htp, htail]
          · constructor
            · intro hnil
              have h1 : (if (yget kvs "board_id").isNone then
                  [s!"Board config at index {i} missing 'board_id'"] else []) = []
                  ∧ placeholderErrors kvs t = [] ∧ tail = [] := by
                rcases List.append_eq_nil.mp hnil with ⟨h12, h3⟩
                rcases List.append_eq_nil.mp h12 with ⟨h1, h2⟩
                exact ⟨h1, h2, h3⟩
              obtain ⟨h1, h2, h3⟩ := h1
              have hbid : (yget kvs "board_id").isSome = true := by
                by_cases hb : (yget kvs "board_id").isNone
                · rw [if_pos hb] at h1
                  exact absurd h1 (by simp)
                · cases hx : yget kvs "board_id"
                  · exact absurd (by simp [hx]) hb
                  · simp
              simp only [List.all_cons, entryOk, htp, hbid, Bool.true_and,
                (placeholderErrors_eq_nil kvs t).mp h2, hiff.mp h3, Bool.and_self]
            · intro hall
              simp only [List.all_cons, Bool.and_eq_true] at hall
              obtain ⟨hb, hrest⟩ := hall
              simp only [entryOk, htp, Bool.and_eq_true] at hb
              obtain ⟨hbid, hph⟩ := hb
              have hbid2 : ¬ (yget kvs "board_id").isNone = true := by
                intro hx
                rw [Option.isNone_iff_eq_none.mp hx] at hbid
                exact absurd hbid (by simp)
              rw [if_neg hbid2, (placeholderErrors_eq_nil kvs t).mpr hph, hiff.mpr hrest]
              simp
        | .boolean v => exact absurd htb (by simp [entryTargetTyped, htp])
        | .int v => exact absurd htb (by simp [entryTargetTyped, htp])
        | .nullV => exact absurd htb (by simp [entryTargetTyped, htp])
        | .list v => exact absurd htb (by simp [entryTargetTyped, htp])
        | .map v => exact absurd htb (by simp [entryTargetTyped, htp])
    | .str v =>
      exact ⟨s!"Board config at index {i} must be a dictionary" :: tail,
        by simp only [validateBoards, htail], by simp [entryOk, List.all_cons]⟩
    | .boolean v =>
      exact ⟨s!"Board config at index {i} must be a dictionary" :: tail,
        by simp only [validateBoards, htail], by simp [entryOk, List.all_cons]⟩
    | .int v =>
      exact ⟨s!"Board config at index {i} must be a dictionary" :: tail,
        by simp only [validateBoards, htail], by simp [entryOk, List.all_cons]⟩
    | .nullV =>
      exact ⟨s!"Board config at index {i} must be a dictionary" :: tail,
        by simp only [validateBoards, htail], by simp [entryOk, List.all_cons]⟩
    | .list v =>
      exact ⟨s!"Board config at index {i} must be a dictionary" :: tail,
        by simp only [validateBoards, htail], by simp [entryOk, List.all_cons]⟩

/-- C6 (amended): the violations `validate_config` returns are empty exactly
when the rules it actually checks all hold — `boards` is a list, every entry
is a mapping carrying `board_id`, and every present (string) `target_path`
contains all four placeholders.  It performs no type check on `enabled`,
`obsidian_root` or `default_assets_folder` (see the counterexample), and a
present non-string `target_path` crashes with a `TypeError` instead of being
reported (hence the `targetPathsTyped` hypothesis). -/
theorem C6_validate_config_checked_rules (config : List (String × YVal))
    (ht : targetPathsTyped config = true) :
    validate_config config = .ok [] ↔ checkedRulesOk config = true := by
  unfold validate_config checkedRulesOk
  unfold targetPathsTyped at ht
  rcases hval : (yget config "boards").getD (.list []) with v | v | v | _ | bs | v
  · simp
  · simp
  · simp
  · simp
  · rw [hval] at ht
    simp only at ht ⊢
    obtain ⟨msgs, hm, hiff⟩ := validateBoards_ok bs 0 (List.all_eq_true.mp ht)
    rw [hm]
    constructor
    · intro h
      exact hiff.mp (by injection h)
    · intro h
      rw [hiff.mpr h]
  · simp

theorem C6_witness : checkedRulesOk goodCfg = true :=
  (C6_validate_config_checked_rules goodCfg rfl).mp rfl

theorem syncCards_dry_all_stale (env : SyncEnv) (rc : ResolvedCtx) (lname : String)
    (hdry : rc.dry_run = true) :
    ∀ (cards : List RemoteCard) (st : SyncStats) (tr : List Effect),
      (∀ c ∈ cards, should_sync_card env.fs env.parseIso (cardPath rc lname c)
        c.dateLastActivity = true) →
      syncCards env rc lname cards st tr
        = .ok (⟨st.total_cards + cards.length, st.synced_cards + cards.length,
            st.skipped_cards⟩, tr)
  | [], st, tr => by
    intro _
    simp [syncCards]
  | card :: rest, st, tr => by
    intro hstale
    have hc := hstale card (List.mem_cons_self _ _)
    have hcard : syncCard env rc lname card st tr
        = .ok (⟨st.total_cards + 1, st.synced_cards + 1, st.skipped_cards⟩, tr) := by
      simp [syncCard, hc, hdry]
    have ih := syncCards_dry_all_stale env rc lname hdry rest
      ⟨st.total_cards + 1, st.synced_cards + 1, st.skipped_cards⟩ tr
      (fun c hx => hstale c (List.mem_cons_of_mem _ hx))
    simp only [syncCards, hcard]
    rw [ih, List.length_cons]
    have h1 : st.total_cards + 1 + rest.length = st.total_cards + (rest.length + 1) := by omega
    have h2 : st.synced_cards + 1 + rest.length = st.synced_cards + (rest.length + 1) := by
      omega
    rw [h1, h2]

theorem syncLists_dry_all_stale (env : SyncEnv) (rc : ResolvedCtx)
    (hdry : rc.dry_run = true) :
    ∀ (lists : List RemoteList) (st : SyncStats) (tr : List Effect),
      (∀ l ∈ lists, ∀ c ∈ l.cards, should_sync_card env.fs env.parseIso
        (cardPath rc l.name c) c.dateLastActivity = true) →
      syncLists env rc lists st tr
        = .ok (⟨st.total_cards + totalOf lists, st.synced_cards + totalOf lists,
            st.skipped_cards⟩, tr ++ lists.map (fun l => Effect.getCards l.id))
  | [], st, tr => by
    intro _
    simp [syncLists, totalOf]
  | l :: rest, st, tr => by
    intro hstale
    have hcards := syncCards_dry_all_stale env rc l.name hdry l.cards st
      (tr ++ [.getCards l.id]) (hstale l (List.mem_cons_self _ _))
    have ih := syncLists_dry_all_stale env rc hdry rest
      ⟨st.total_cards + l.cards.length, st.synced_cards + l.cards.length, st.skipped_cards⟩
      (tr ++ [.getCards l.id]) (fun l' h' => hstale l' (List.mem_cons_of_mem _ h'))
    simp only [syncLists, hcards]
    rw [ih]
    have htot : totalOf (l :: rest) = l.cards.length + totalOf rest := by
      simp [totalOf]
    rw [htot]
    have h1 : st.total_cards + l.cards.length + totalOf rest
        = st.total_cards + (l.cards.length + totalOf rest) := by omega
    have h2 : st.synced_cards + l.cards.length + totalOf rest
        = st.synced_cards + (l.cards.length + totalOf rest) := by omega
    rw [h1, h2]
    simp [List.append_assoc]

/-- C7: on a configured, enabled board all of whose cards are stale,
`sync_board` with `dry_run = true` reports every card as synced
(`synced_cards = N`, `skipped_cards = 0`) and its effect trace holds only
read-only fetches — no card hydration, no download, no directory creation, no
file write, no warning. -/
theorem C7_dry_run_no_effects (env : SyncEnv) (board_id : String)
    (board_name workspace_name : Option String) (bc : BoardConfig) (root : String)
    (hc : get_board_config env.boards board_id = some bc)
    (he : bc.enabled.getD true = true)
    (hr : env.obsidian_root = some root)
    (hstale : ∀ l ∈ env.lists, ∀ c ∈ l.cards,
      should_sync_card env.fs env.parseIso
        (cardPath (resolvedCtx env board_id board_name workspace_name bc root true) l.name c)
        c.dateLastActivity = true) :
    ∃ tr, sync_board env board_id board_name workspace_name true
        = .ok (⟨totalOf env.lists, totalOf env.lists, 0⟩, tr)
      ∧ ∀ e ∈ tr, fetchEffect e = true := by
  refine ⟨((if truthyOpt board_name then [] else [.getBoard board_id]) ++
      (if truthyOpt workspace_name then [] else [.getBoard board_id])) ++
      [.getLists board_id] ++ env.lists.map (fun l => Effect.getCards l.id), ?_, ?_⟩
  · simp only [sync_board, hc]
    rw [he]
    rw [if_neg (by simp)]
    simp only [hr]
    have h := syncLists_dry_all_stale env
      (resolvedCtx env board_id board_name workspace_name bc root true) rfl
      env.lists ⟨0, 0, 0⟩
      (((if truthyOpt board_name then [] else [.getBoard board_id]) ++
        (if truthyOpt workspace_name then [] else [.getBoard board_id])) ++
        [.getLists board_id]) hstale
    simp only at h
    rw [h]
    simp [List.append_assoc]
  · intro e he2
    simp only [List.append_assoc, List.mem_append, List.mem_map] at he2
    rcases he2 with h | h | h | ⟨l, _, rfl⟩
    · by_cases hb : truthyOpt board_name = true
      · rw [if_pos hb] at h
        exact absurd h (List.not_mem_nil e)
      · rw [if_neg hb] at h
        rw [List.mem_singleton.mp h]
        rfl
    · by_cases hb : truthyOpt workspace_name = true
      · rw [if_pos hb] at h
        exact absurd h (List.not_mem_nil e)
      · rw [if_neg hb] at h
        rw [List.mem_singleton.mp h]
        rfl
    · rw [List.mem_singleton.mp h]
      rfl
    · rfl

theorem C7_witness :
    ∃ tr, sync_board envWitness "b1" none none true = .ok (⟨2, 2, 0⟩, tr)
      ∧ ∀ e ∈ tr, fetchEffect e = true := by
  have h := C7_dry_run_no_effects envWitness "b1" none none
    { board_id := some "b1", enabled := some true, workspace_name := some "Acme",
      target_path := none, assets_folder := none } "/vault"
    (by decide) (by decide) rfl (by decide)
  simpa using h

theorem syncCard_invariant (env : SyncEnv) (rc : ResolvedCtx) (lname : String)
    (card : RemoteCard) (st : SyncStats) (tr : List Effect) (st2 : SyncStats)
    (tr2 : List Effect)
    (h : syncCard env rc lname card st tr = .ok (st2, tr2))
    (hinv : st.total_cards = st.synced_cards + st.skipped_cards) :
    st2.total_cards = st2.synced_cards + st2.skipped_cards := by
  simp only [syncCard] at h
  split at h
  · injection h with h'
    injection h' with h1 _
    subst h1
    simp
    omega
  · split at h
    · injection h with h'
      injection h' with h1 _
      subst h1
      simp
      omega
    · split at h
      · exact absurd h (by simp)
      · split at h
        · exact absurd h (by simp)
        · injection h with h'
          injection h' with h1 _
          subst h1
          simp
          omega

theorem syncCards_invariant (env : SyncEnv) (rc : ResolvedCtx) (lname : String) :
    ∀ (cards : List RemoteCard) (st : SyncStats) (tr : List Effect) (st2 : SyncStats)
      (tr2 : List Effect),
      syncCards env rc lname cards st tr = .ok (st2, tr2) →
      st.total_cards = st.synced_cards + st.skipped_cards →
      st2.total_cards = st2.synced_cards + st2.skipped_cards
  | [], st, tr, st2, tr2 => by
    intro h hinv
    simp only [syncCards] at h
    injection h with h'
    injection h' with h1 _
    subst h1
    exact hinv
  | card :: rest, st, tr, st2, tr2 => by
    intro h hinv
    simp only [syncCards] at h
    rcases hc : syncCard env rc lname card st tr with e | ⟨st1, tr1⟩
    · rw [hc] at h
      exact absurd h (by simp)
    · rw [hc] at h
      exact syncCards_invariant env rc lname rest st1 tr1 st2 tr2 h
        (syncCard_invariant env rc lname card st tr st1 tr1 hc hinv)

theorem syncLists_invariant (env : SyncEnv) (rc : ResolvedCtx) :
    ∀ (lists : List RemoteList) (st : SyncStats) (tr : List Effect) (st2 : SyncStats)
      (tr2 : List Effect),
      syncLists env rc lists st tr = .ok (st2, tr2) →
      st.total_cards = st.synced_cards + st.skipped_cards →
      st2.total_cards = st2.synced_cards + st2.skipped_cards
  | [], st, tr, st2, tr2 => by
    intro h hinv
    simp only [syncLists] at h
    injection h with h'
    injection h' with h1 _
    subst h1
    exact hinv
  | l :: rest, st, tr, st2, tr2 => by
    intro h hinv
    simp only [syncLists] at h
    rcases hc : syncCards env rc l.name l.cards st (tr ++ [.getCards l.id]) with e | ⟨st1, tr1⟩
    · rw [hc] at h
      exact absurd h (by simp)
    · rw [hc] at h
      exact syncLists_invariant env rc rest st1 tr1 st2 tr2 h
        (syncCards_invariant env rc l.name l.cards st _ st1 tr1 hc hinv)

/-- C10: whenever `sync_board` returns normally, the counters satisfy
`total_cards = synced_cards + skipped_cards` — each counted card is classified
as exactly one of synced or skipped. -/
theorem C10_counters_partition (env : SyncEnv) (board_id : String)
    (board_name workspace_name : Option String) (dry_run : Bool)
    (stats : SyncStats) (tr : List Effect)
    (h : sync_board env board_id board_name workspace_name dry_run = .ok (stats, tr)) :
    stats.total_cards = stats.synced_cards + stats.skipped_cards := by
  simp only [sync_board] at h
  split at h
  · injection h with h'
    injection h' with h1 _
    subst h1
    rfl
  · split at h
    · injection h with h'
      injection h' with h1 _
      subst h1
      rfl
    · split at h
      · exact absurd h (by simp)
      · exact syncLists_invariant env _ env.lists ⟨0, 0, 0⟩ _ stats tr h rfl

theorem C10_witness :
    (SyncStats.mk 2 2 0).total_cards
      = (SyncStats.mk 2 2 0).synced_cards + (SyncStats.mk 2 2 0).skipped_cards :=
  C10_counters_partition envWitness "b1" none none true ⟨2, 2, 0⟩
    ([.getBoard "b1", .getBoard "b1", .getLists "b1", .getCards "l1"]) rfl

theorem processAtts_error_noFuel (env : SyncEnv) (cp af : String) :
    ∀ (atts : List Att) (dl : List (String × DownloadedInfo)) (tr : List Effect)
      (e : SyncErr),
      processAtts env cp af atts dl tr = .error e → e = .noFuel
  | [], dl, tr, e => by
    intro h
    exact absurd h (by simp [processAtts])
  | att :: rest, dl, tr, e => by
    intro h
    simp only [processAtts] at h
    split at h
    · split at h
      · split at h
        · injection h with h'
          exact h'.symm
        · split at h
          · exact processAtts_error_noFuel env cp af rest _ _ e h
          · exact processAtts_error_noFuel env cp af rest _ _ e h
      · exact processAtts_error_noFuel env cp af rest _ _ e h
    · exact processAtts_error_noFuel env cp af rest _ _ e h

/-- C8: a failure while downloading a single upload-type attachment is
isolated to that attachment.  Batch path (`process_attachments`, modelled from
the spec, its source being absent from src/): the failed attachment's record
gains a `download_error` holding the failure's message and no local-path
metadata, the output keeps one record per input, and processing continues with
the remaining attachments.  Pipeline path (`sync_board`'s inlined loop): a
failed download produces a console warning and the loop moves on, attachment
processing can only abort through fuel exhaustion of the probing loop (never
because a download failed), and the enclosing card is still rendered and
written once its attachment loop completes. -/
theorem C8_download_failure_isolated :
    (∀ (dl : Att → Except String String) (relp : String → String) (atts : List Att),
      (process_attachments dl relp atts).length = atts.length) ∧
    (∀ (dl : Att → Except String String) (relp : String → String) (a : Att)
      (rest : List Att),
      process_attachments dl relp (a :: rest)
        = processOne dl relp a :: process_attachments dl relp rest) ∧
    (∀ (dl : Att → Except String String) (relp : String → String) (a : Att) (msg : String),
      a.isUpload = true → a.url.getD "" ≠ "" → dl a = .error msg →
      processOne dl relp a
        = { att := a, local_path := none, is_image := none, asset_path := none,
            download_error := some msg }) ∧
    (∀ (env : SyncEnv) (cp af : String) (att : Att) (rest : List Att)
      (downloaded : List (String × DownloadedInfo)) (tr : List Effect) (ap : String),
      att.isUpload = true → att.url.getD "" ≠ "" →
      get_unique_filename (fun p => (env.fs p).isSome) af
        (lastComponent (get_asset_path cp (att.name.getD "untitled") af)) env.uniqueFuel
        = some ap →
      env.downloadOk (att.id.getD "") = false →
      processAtts env cp af (att :: rest) downloaded tr
        = processAtts env cp af rest downloaded (tr ++ [.warn (att.name.getD "untitled")])) ∧
    (∀ (env : SyncEnv) (cp af : String) (atts : List Att)
      (dl : List (String × DownloadedInfo)) (tr : List Effect) (e : SyncErr),
      processAtts env cp af atts dl tr = .error e → e = .noFuel) ∧
    (∀ (env : SyncEnv) (rc : ResolvedCtx) (lname : String) (card : RemoteCard)
      (st : SyncStats) (tr : List Effect) (attachments : List Att)
      (downloaded : List (String × DownloadedInfo)) (tr2 : List Effect),
      should_sync_card env.fs env.parseIso (cardPath rc lname card) card.dateLastActivity
        = true →
      rc.dry_run = false →
      env.hydrate card.id = some attachments →
      processAtts env (cardPath rc lname card) (assetsFolder rc) attachments []
        (tr ++ [.hydrateCard card.id]) = .ok (downloaded, tr2) →
      syncCard env rc lname card st tr
        = .ok (⟨st.total_cards + 1, st.synced_cards + 1, st.skipped_cards⟩,
            tr2 ++ [.mkdirE (parentDir (cardPath rc lname card)),
                    .writeFile (cardPath rc lname card) downloaded])) := by
  refine ⟨?_, ?_, ?_, ?_, processAtts_error_noFuel, ?_⟩
  · intro dl relp atts
    simp [process_attachments]
  · intro dl relp a rest
    simp [process_attachments]
  · intro dl relp a msg h1 h2 h3
    simp [processOne, h1, h2, h3]
  · intro env cp af att rest downloaded tr ap h1 h2 hu h3
    simp only [processAtts, h1, if_pos, hu, h3]
    rw [if_pos h2]
    simp [h3]
  · intro env rc lname card st tr attachments downloaded tr2 hstale hdry hhyd hpa
    simp only [syncCard, hstale, hdry, hhyd, hpa]
    simp

theorem C8_witness :
    processOne (fun _ => .error "Download failed") (fun s => s) attBad
      = { att := attBad, local_path := none, is_image := none, asset_path := none,
          download_error := some "Download failed" } :=
  C8_download_failure_isolated.2.2.1 (fun _ => .error "Download failed") (fun s => s)
    attBad "Download failed" (by decide) (by decide) rfl
